import Mathlib

/-
Shallow embedding of src/v1_train_capsnet.py: a Keras capsule-network
training script.  Numeric values are modelled over the rationals; the
filesystem is modelled as an explicit state; framework calls that can
raise are modelled as Except-valued oracles.
-/

namespace CapsNet

-- configurations (module-level constants of the script)
def ARCHITECTURE : String := "capsnet"

def DECODER_NAME : String := "decoder"

def NUM_TCLASSES : Nat := 10

def DATASET_ID : String := "synthetic_digits"

def DATA_TRAIN : String := "data/" ++ DATASET_ID ++ "/data_train_104x104/data.mat"

def DATA_VALID : String := "data/" ++ DATASET_ID ++ "/data_valid_104x104/data.mat"

def INPUT_DSHAPE : List Nat := [104, 104, 3]

def IMAGE_SIZE : List Nat := [104, 104, 3]

def BATCH_SIZE : Nat := 50

def NUM_EPOCHS : Nat := 100

def LEARN_RATE : ℚ := 0.001

def DECAY_RATE : ℚ := 0.9

def RECON_COEF : ℚ := 0.0005

def N_ROUTINGS : Nat := 3

def OUTPUT_DIR : String := "output/" ++ DATASET_ID ++ "/" ++ ARCHITECTURE ++ "/"

def AUTH_TOKEN : Option String := none

def TELCHAT_ID : Option String := none

/-- Model of os.path.join for the relative paths this script builds:
a separator is inserted unless the left part already ends with one. -/
def pyJoin (a b : String) : String :=
  if a.data.getLast? = some '/' then a ++ b else a ++ "/" ++ b

-- paths for model architectures
def mdl_dir : String := pyJoin OUTPUT_DIR "models"

def mdl_train_file : String := pyJoin mdl_dir (ARCHITECTURE ++ "_train.json")

def mdl_evaln_file : String := pyJoin mdl_dir (ARCHITECTURE ++ ".json")

-- paths for callbacks
def log_dir : String := pyJoin OUTPUT_DIR "logs"

def cpt_dir : String := pyJoin OUTPUT_DIR "checkpoints"

def tbd_dir : String := pyJoin OUTPUT_DIR "tensorboard"

def log_file : String := pyJoin log_dir "training.csv"

def cpt_best : String := pyJoin cpt_dir (ARCHITECTURE ++ "_best.h5")

def cpt_last : String := pyJoin cpt_dir (ARCHITECTURE ++ "_last.h5")

-- paths written by plot()
def plot_loss_file : String := pyJoin log_dir "plot_loss.png"

def plot_accuracy_file : String := pyJoin log_dir "plot_accuracy.png"

/-- Filesystem state: the set of regular-file paths that exist, and an
association list from existing directory paths to the names of their
entries (files or subdirectories). -/
structure FS where
  files : List String
  dirs : List (String × List String)
deriving DecidableEq

/-- Association-list lookup used to query the directory table. -/
def findDir : List (String × List String) → String → Option (List String)
  | [], _ => none
  | (k, v) :: rest, d => if k = d then some v else findDir rest d

/-- Model of os.path.isfile. -/
def isfile (fs : FS) (p : String) : Bool := fs.files.contains p

/-- Model of os.path.isdir. -/
def isdir (fs : FS) (p : String) : Bool := (findDir fs.dirs p).isSome

/-- Entry names of a directory (empty list when the directory is absent). -/
def entries (fs : FS) (p : String) : List String := (findDir fs.dirs p).getD []

/-- Model of os.makedirs: the new directory exists and is empty.  Parent
entry lists need not be updated because the script never re-reads a
directory after creating a child inside it. -/
def makedirs (fs : FS) (p : String) : FS :=
  { fs with dirs := (p, []) :: fs.dirs }

/-- A name is matched by the glob pattern given to glob.glob, namely
a shell pattern of a star, a dot and a star: the name must contain a
dot, and glob skips hidden names (those beginning with a dot). -/
def matchesGlob (name : String) : Bool :=
  name.data.contains '.' && !(name.data.head? == some '.')

/-- Number of entries of directory d matched by the glob call in
validate_paths. -/
def globCount (fs : FS) (d : String) : Nat :=
  ((entries fs d).filter matchesGlob).length

/-- State threaded through validate_paths: the flag it returns, the
(possibly mutated) filesystem, and the messages it printed. -/
structure VState where
  flag : Bool
  fs : FS
  log : List String
deriving DecidableEq

def dataFiles : List String := [DATA_TRAIN, DATA_VALID]

def outputDirs : List String := [OUTPUT_DIR, mdl_dir, log_dir, cpt_dir, tbd_dir]

/-- Body of the first loop of validate_paths. -/
def checkFile (st : VState) (f : String) : VState :=
  if isfile st.fs f then st
  else { st with flag := false,
                 log := st.log ++ ["[INFO] Data not found at " ++ f] }

/-- Body of the second loop of validate_paths. -/
def checkDir (st : VState) (d : String) : VState :=
  if isdir st.fs d = false then { st with fs := makedirs st.fs d }
  else if 0 < globCount st.fs d then
    { st with flag := false,
              log := st.log ++ ["[INFO] Output directory " ++ d ++ " must be empty"] }
  else st

/-- Model of validate_paths: checks the two data files, then creates or
checks the five output directories, returning the flag, the mutated
filesystem and the printed messages. -/
def validate_paths (fs : FS) : VState :=
  outputDirs.foldl checkDir
    (dataFiles.foldl checkFile { flag := true, fs := fs, log := [] })

/-- A row of a loaded data matrix: column 0 (an integer class label)
and the remaining columns (flattened pixel intensities). -/
abbrev Row : Type := Nat × List ℚ

/-- Number of pixel columns a row must have for the reshape to the
input shape of 104 by 104 by 3 to be valid. -/
def pixelCount : Nat := 104 * 104 * 3

/-- Row-major numpy reshape of a flat pixel vector to shape
(104, 104, 3): the element at (a, b, c) is the flat element at
a * 312 + b * 3 + c. -/
def reshape3 (flat : List ℚ) : List (List (List ℚ)) :=
  (List.range 104).map fun a =>
    (List.range 104).map fun b =>
      (List.range 3).map fun c => flat.getD (a * (104 * 3) + b * 3 + c) 0

/-- Elementwise division of a reshaped image by 255, as performed by
the astype-then-divide step of load_data. -/
def scaleImage (img : List (List (List ℚ))) : List (List (List ℚ)) :=
  img.map (List.map (List.map (fun v => v / 255)))

/-- Model of keras.utils.to_categorical with the class count inferred
from the data: width is the maximum label plus one. -/
def numClasses (labels : List Nat) : Nat := labels.foldr max 0 + 1

/-- One-hot vector of width n with a one at position k. -/
def oneHot (n k : Nat) : List ℚ :=
  (List.range n).map fun j => if j = k then 1 else 0

def to_categorical (labels : List Nat) : List (List ℚ) :=
  labels.map (oneHot (numClasses labels))

/-- Split one shuffled matrix into the image tensor (columns 1 and on,
reshaped and divided by 255) and the one-hot labels (column 0). -/
def load_split (m : List Row) : List (List (List (List ℚ))) × List (List ℚ) :=
  (m.map fun r => scaleImage (reshape3 r.2), to_categorical (m.map Prod.fst))

/-- Model of load_data.  The in-place numpy.random.shuffle calls are
modelled by permutation functions applied to each matrix before any
column is sliced; the cv2.resize fallback branch (dead for the
script's constants, since IMAGE_SIZE equals INPUT_DSHAPE) is modelled
by an abstract resize argument. -/
def load_data (resize : List ℚ → List (List (List ℚ)))
    (shuffleT shuffleV : List Row → List Row) (mt mv : List Row) :
    (List (List (List (List ℚ))) × List (List ℚ)) ×
    (List (List (List (List ℚ))) × List (List ℚ)) :=
  let data_train := shuffleT mt
  let data_valid := shuffleV mv
  if IMAGE_SIZE = INPUT_DSHAPE then
    (load_split data_train, load_split data_valid)
  else
    ((data_train.map fun r => scaleImage (resize r.2),
      to_categorical (data_train.map Prod.fst)),
     (data_valid.map fun r => scaleImage (resize r.2),
      to_categorical (data_valid.map Prod.fst)))

-- tensor primitives used by margin_loss (keras backend operations on
-- rank-2 tensors, modelled as lists of lists of rationals)
def tMul (a b : List (List ℚ)) : List (List ℚ) :=
  List.zipWith (List.zipWith (fun x y => x * y)) a b

def tAdd (a b : List (List ℚ)) : List (List ℚ) :=
  List.zipWith (List.zipWith (fun x y => x + y)) a b

/-- Broadcast subtraction of a tensor from a scalar. -/
def scalarSub (c : ℚ) (t : List (List ℚ)) : List (List ℚ) :=
  t.map (List.map (fun x => c - x))

/-- Broadcast subtraction of a scalar from a tensor. -/
def tSubScalar (t : List (List ℚ)) (c : ℚ) : List (List ℚ) :=
  t.map (List.map (fun x => x - c))

/-- Broadcast multiplication of a tensor by a scalar. -/
def scalarMul (c : ℚ) (t : List (List ℚ)) : List (List ℚ) :=
  t.map (List.map (fun x => c * x))

/-- backend.maximum with a scalar first argument. -/
def kMaximum (c : ℚ) (t : List (List ℚ)) : List (List ℚ) :=
  t.map (List.map (fun x => max c x))

/-- backend.square. -/
def kSquare (t : List (List ℚ)) : List (List ℚ) :=
  t.map (List.map (fun x => x * x))

/-- backend.sum along axis 1: per-sample sum over classes. -/
def kSumAxis1 (t : List (List ℚ)) : List ℚ := t.map List.sum

/-- backend.mean of a rank-1 tensor. -/
def kMean (v : List ℚ) : ℚ := v.sum / (v.length : ℚ)

/-- Model of margin_loss, following the source expression: the loss
tensor is y_true times square of maximum of 0 and 0.9 minus y_pred,
plus 0.5 times (1 minus y_true) times square of maximum of 0 and
y_pred minus 0.1; the result is the mean over axis 0 of its sums
along axis 1. -/
def margin_loss (y_true y_pred : List (List ℚ)) : ℚ :=
  let loss :=
    tAdd (tMul y_true (kSquare (kMaximum 0 (scalarSub 0.9 y_pred))))
      (scalarMul 0.5 (tMul (scalarSub 1 y_true)
        (kSquare (kMaximum 0 (tSubScalar y_pred 0.1)))))
  kMean (kSumAxis1 loss)

/-- Modelled from the spec: the scalar the claim says margin_loss
returns, written directly as a mean over samples of a per-sample sum
over classes of the pointwise penalty. -/
def marginLossSpec (y_true y_pred : List (List ℚ)) : ℚ :=
  (List.zipWith (fun tr pr =>
      (List.zipWith (fun t p =>
        t * max 0 (0.9 - p) ^ 2 + 0.5 * (1 - t) * max 0 (p - 0.1) ^ 2) tr pr).sum)
    y_true y_pred).sum / (y_true.length : ℚ)

/-- Learning-rate schedule installed by the LearningRateScheduler
callback: epoch e maps to LEARN_RATE times DECAY_RATE to the power e. -/
def lrSchedule (epoch : Nat) : ℚ := LEARN_RATE * DECAY_RATE ^ epoch

/-- Configuration records of the callback objects the script creates,
keeping the constructor arguments that the claims are about. -/
inductive Callback where
  | csvLogger (filename : String) (append : Bool)
  | earlyStopping (monitor : String) (minDelta : ℚ) (patience : Nat)
  | lrScheduler (schedule : Nat → ℚ)
  | modelCheckpoint (filepath monitor : String) (saveBestOnly saveWeightsOnly : Bool)
  | tensorBoard (logDir : String) (batchSize : Nat)
  | telegram (authToken chatId : Option String) (monitor : String) (outDir : String)

/-- Model of callbacks(): the seven callback objects in construction
order. -/
def callbacks : List Callback :=
  [Callback.csvLogger log_file true,
   Callback.earlyStopping ("val_" ++ ARCHITECTURE ++ "_loss") 0 10,
   Callback.lrScheduler lrSchedule,
   Callback.modelCheckpoint cpt_best ("val_" ++ ARCHITECTURE ++ "_acc") true true,
   Callback.modelCheckpoint cpt_last ("val_" ++ ARCHITECTURE ++ "_acc") false true,
   Callback.tensorBoard tbd_dir BATCH_SIZE,
   Callback.telegram AUTH_TOKEN TELCHAT_ID ("val_" ++ ARCHITECTURE ++ "_acc") OUTPUT_DIR]

/-- Observable effects of a run of train(). -/
inductive Event where
  | consoleInfo (msg : String)
  | writeFile (path : String)
  | sendMessage (chatId : Option String)
  | fitCall
  | savePlot (path : String)
deriving DecidableEq

/-- Outcomes of the framework calls train() makes, each of which may
raise an exception (modelled as an error value). -/
structure TrainEnv where
  loadResult : Except String Unit
  buildResult : Except String Unit
  fitResult : Except String Unit

/-- Model of train(): validate paths and return early on failure; then
load data, build the model, write the two model JSON files, create the
callbacks, send the acknowledgement chat message, fit, and plot.  No
exception handler is installed: an error from any framework call is
returned as the error of the whole run. -/
def train (fs : FS) (env : TrainEnv) : Except String (List Event) :=
  let v := validate_paths fs
  let ev0 := v.log.map Event.consoleInfo
  if v.flag = false then Except.ok ev0
  else
    match env.loadResult with
    | Except.error e => Except.error e
    | Except.ok _ =>
      match env.buildResult with
      | Except.error e => Except.error e
      | Except.ok _ =>
        let evs := ev0 ++
          [Event.consoleInfo "[INFO] Loading data... done",
           Event.consoleInfo "[INFO] Building model... done",
           Event.writeFile mdl_train_file,
           Event.writeFile mdl_evaln_file,
           Event.sendMessage TELCHAT_ID]
        match env.fitResult with
        | Except.error e => Except.error e
        | Except.ok _ =>
          Except.ok (evs ++
            [Event.fitCall,
             Event.savePlot plot_loss_file,
             Event.savePlot plot_accuracy_file])

-- all paths constructed by the script for writing on disk
def outputWritePaths : List String :=
  [mdl_train_file, mdl_evaln_file, log_file, plot_loss_file,
   plot_accuracy_file, cpt_best, cpt_last, tbd_dir]

def outputSubdirs : List String := [mdl_dir, log_dir, cpt_dir, tbd_dir]

/-- d is a path-component-wise ancestor-or-equal of p: every write with
path p lands inside directory d. -/
def underDir (d p : String) : Bool := d.data.isPrefixOf p.data

/-- Pointwise margin penalty of a label entry t and a prediction entry
p, as the claim writes it. -/
def pointLoss (t p : ℚ) : ℚ :=
  t * max 0 (0.9 - p) ^ 2 + 0.5 * (1 - t) * max 0 (p - 0.1) ^ 2

/-- The event list of a run of train() that passes validation with an
empty message log and in which no framework call raises. -/
def successEvents : List Event :=
  [Event.consoleInfo "[INFO] Loading data... done",
   Event.consoleInfo "[INFO] Building model... done",
   Event.writeFile mdl_train_file,
   Event.writeFile mdl_evaln_file,
   Event.sendMessage TELCHAT_ID,
   Event.fitCall,
   Event.savePlot plot_loss_file,
   Event.savePlot plot_accuracy_file]

-- concrete fixtures used by witnesses and counterexamples
def envOk : TrainEnv :=
  { loadResult := Except.ok (), buildResult := Except.ok (), fitResult := Except.ok () }

def envLoadFail : TrainEnv :=
  { loadResult := Except.error "IOError", buildResult := Except.ok (), fitResult := Except.ok () }

/-- Both data files exist and no output directory exists yet. -/
def fsFresh : FS := { files := [DATA_TRAIN, DATA_VALID], dirs := [] }

/-- Both data files exist but the top output directory pre-exists and
is non-empty, holding a single extensionless entry. -/
def fsBad : FS := { files := [DATA_TRAIN, DATA_VALID], dirs := [(OUTPUT_DIR, ["README"])] }

/-- Both data files exist; two output directories pre-exist holding
only dotless entries. -/
def fsDotless : FS :=
  { files := [DATA_TRAIN, DATA_VALID],
    dirs := [(OUTPUT_DIR, ["README", "assets"]), (log_dir, ["archive"])] }

/-- Neither data file exists. -/
def fsMissing : FS := { files := [], dirs := [] }

/-- A well-formed one-row training matrix. -/
def rowW : Row := (3, List.replicate pixelCount 170)

def mtW : List Row := [rowW]

/-- Resize oracle for the dead branch of load_data. -/
def resizeW : List ℚ → List (List (List ℚ)) := fun _ => []

-- helper lemmas

/-- Row-level shape of the loss tensor: the zipped broadcast operations
collapse to one zipWith of the pointwise penalty. -/
lemma marginRow_eq : ∀ r s : List ℚ,
    List.zipWith (fun x y => x + y)
      (List.zipWith (fun x y => x * y) r
        (List.map (fun x => max 0 (0.9 - x) * max 0 (0.9 - x)) s))
      (List.map (fun x => 0.5 * x)
        (List.zipWith (fun x y => x * y) (List.map (fun x => 1 - x) r)
          (List.map (fun x => max 0 (x - 0.1) * max 0 (x - 0.1)) s)))
      = List.zipWith pointLoss r s := by
  intro r
  induction r with
  | nil => intro s; simp
  | cons t ts ih =>
    intro s
    cases s with
    | nil => simp
    | cons p ps =>
      simp only [List.map_cons, List.zipWith_cons_cons, List.cons.injEq]
      refine ⟨?_, ih ps⟩
      unfold pointLoss
      ring

/-- The loss tensor built by margin_loss is the zipWith of the
pointwise penalty. -/
lemma lossTensor_eq : ∀ y_true y_pred : List (List ℚ),
    tAdd (tMul y_true (kSquare (kMaximum 0 (scalarSub 0.9 y_pred))))
      (scalarMul 0.5 (tMul (scalarSub 1 y_true)
        (kSquare (kMaximum 0 (tSubScalar y_pred 0.1)))))
      = List.zipWith (List.zipWith pointLoss) y_true y_pred := by
  intro y_true
  induction y_true with
  | nil => intro y_pred; simp [tAdd, tMul, scalarSub, scalarMul, kSquare, kMaximum, tSubScalar]
  | cons r rt ih =>
    intro y_pred
    cases y_pred with
    | nil => simp [tAdd, tMul, scalarSub, scalarMul, kSquare, kMaximum, tSubScalar]
    | cons s st =>
      have htail := ih st
      simp only [tAdd, tMul, scalarSub, scalarMul, kSquare, kMaximum, tSubScalar,
        List.map_cons, List.zipWith_cons_cons, List.cons.injEq] at htail ⊢
      refine ⟨?_, htail⟩
      have hmax : ∀ x : ℚ, max (0 : ℚ) x * max 0 x = max 0 x * max 0 x := fun _ => rfl
      simpa [List.map_map, Function.comp] using marginRow_eq r s

/-- margin_loss as a mean of pointwise row sums. -/
lemma margin_loss_eq_pointwise (y_true y_pred : List (List ℚ)) :
    margin_loss y_true y_pred
      = kMean ((List.zipWith (List.zipWith pointLoss) y_true y_pred).map List.sum) := by
  unfold margin_loss
  rw [lossTensor_eq]
  rfl

/-- Any member of a zipWith comes from a member of each input list. -/
lemma of_mem_zipWith {α β γ : Type} (f : α → β → γ) :
    ∀ {a : List α} {b : List β} {x : γ}, x ∈ List.zipWith f a b →
      ∃ u, u ∈ a ∧ ∃ v, v ∈ b ∧ x = f u v := by
  intro a
  induction a with
  | nil => intro b x h; simp at h
  | cons y ys ih =>
    intro b x h
    cases b with
    | nil => simp at h
    | cons z zs =>
      simp only [List.zipWith_cons_cons, List.mem_cons] at h
      rcases h with h | h
      · exact ⟨y, List.mem_cons_self y ys, z, List.mem_cons_self z zs, h⟩
      · rcases ih h with ⟨u, hu, v, hv, hx⟩
        exact ⟨u, List.mem_cons_of_mem _ hu, v, List.mem_cons_of_mem _ hv, hx⟩

/-- The pointwise penalty is non-negative when the label entry lies in
the unit interval. -/
lemma pointLoss_nonneg {t p : ℚ} (h0 : 0 ≤ t) (h1 : t ≤ 1) : 0 ≤ pointLoss t p := by
  unfold pointLoss
  have hm1 : (0 : ℚ) ≤ max 0 (0.9 - p) ^ 2 := pow_nonneg (le_max_left 0 _) 2
  have hm2 : (0 : ℚ) ≤ max 0 (p - 0.1) ^ 2 := pow_nonneg (le_max_left 0 _) 2
  have ht : (0 : ℚ) ≤ 1 - t := by linarith
  have h2 : (0 : ℚ) ≤ 0.5 * (1 - t) := by nlinarith
  exact add_nonneg (mul_nonneg h0 hm1) (mul_nonneg h2 hm2)

/-- The per-directory test validate_paths effectively applies: either
the directory does not yet exist, or no entry matches the glob. -/
def dirOk (fs : FS) (d : String) : Bool :=
  !(isdir fs d) || (globCount fs d == 0)

lemma isdir_makedirs (fs : FS) (d p : String) :
    isdir (makedirs fs d) p = if d = p then true else isdir fs p := by
  simp only [isdir, makedirs, findDir]
  split <;> simp

lemma entries_makedirs (fs : FS) (d p : String) :
    entries (makedirs fs d) p = if d = p then [] else entries fs p := by
  simp only [entries, makedirs, findDir]
  split <;> simp

lemma globCount_makedirs (fs : FS) (d p : String) :
    globCount (makedirs fs d) p = if d = p then 0 else globCount fs p := by
  simp only [globCount, entries_makedirs]
  split <;> simp

lemma dirOk_makedirs (fs : FS) {d p : String} (h : d ≠ p) :
    dirOk (makedirs fs d) p = dirOk fs p := by
  simp [dirOk, isdir_makedirs, globCount_makedirs, h]

lemma checkFile_fs (st : VState) (f : String) : (checkFile st f).fs = st.fs := by
  unfold checkFile
  split <;> rfl

lemma checkFile_flag (st : VState) (f : String) :
    (checkFile st f).flag = (st.flag && isfile st.fs f) := by
  unfold checkFile
  split <;> simp_all

lemma all_congr_of_eq {α : Type} {l : List α} {f g : α → Bool}
    (h : ∀ x ∈ l, f x = g x) : l.all f = l.all g := by
  induction l with
  | nil => rfl
  | cons x xs ih =>
    simp only [List.all_cons, h x (List.mem_cons_self x xs)]
    rw [ih fun y hy => h y (List.mem_cons_of_mem x hy)]

lemma foldFile_fs : ∀ (l : List String) (st : VState),
    (l.foldl checkFile st).fs = st.fs := by
  intro l
  induction l with
  | nil => intro st; rfl
  | cons f fsx ih => intro st; rw [List.foldl_cons, ih, checkFile_fs]

lemma foldFile_flag : ∀ (l : List String) (st : VState),
    (l.foldl checkFile st).flag = (st.flag && l.all fun f => isfile st.fs f) := by
  intro l
  induction l with
  | nil => intro st; simp
  | cons f fsx ih =>
    intro st
    rw [List.foldl_cons, ih, checkFile_flag, checkFile_fs, List.all_cons]
    cases st.flag <;> simp [Bool.and_assoc]

lemma foldDir_flag : ∀ (l : List String) (st : VState), l.Nodup →
    (l.foldl checkDir st).flag = (st.flag && l.all fun d => dirOk st.fs d) := by
  intro l
  induction l with
  | nil => intro st _; simp
  | cons d ds ih =>
    intro st hnd
    rcases List.nodup_cons.mp hnd with ⟨hd, hds⟩
    rw [List.foldl_cons, ih _ hds, List.all_cons]
    unfold checkDir
    by_cases h1 : isdir st.fs d = false
    · rw [if_pos h1]
      have hall : (ds.all fun p => dirOk (makedirs st.fs d) p)
          = ds.all fun p => dirOk st.fs p :=
        all_congr_of_eq fun p hp => dirOk_makedirs st.fs fun he => hd (he ▸ hp)
      have hok : dirOk st.fs d = true := by simp [dirOk, h1]
      show (st.flag && ds.all fun p => dirOk (makedirs st.fs d) p)
        = (st.flag && (dirOk st.fs d && ds.all fun p => dirOk st.fs p))
      rw [hall, hok, Bool.true_and]
    · have h1' : isdir st.fs d = true := by
        cases h : isdir st.fs d
        · exact absurd h h1
        · rfl
      rw [if_neg h1]
      by_cases h2 : 0 < globCount st.fs d
      · rw [if_pos h2]
        have hbad : dirOk st.fs d = false := by
          simp [dirOk, h1', Nat.pos_iff_ne_zero.mp h2]
        show (false && ds.all fun p => dirOk st.fs p)
          = (st.flag && (dirOk st.fs d && ds.all fun p => dirOk st.fs p))
        rw [hbad]
        simp
      · rw [if_neg h2]
        have hok : dirOk st.fs d = true := by
          simp [dirOk, h1', Nat.eq_zero_of_not_pos h2]
        rw [hok, Bool.true_and]

lemma isdir_makedirs_of (fs : FS) (d p : String) (h : isdir fs p = true) :
    isdir (makedirs fs d) p = true := by
  rw [isdir_makedirs]
  split <;> simp [h]

lemma checkDir_fs_cases (st : VState) (d : String) :
    (checkDir st d).fs = makedirs st.fs d ∨ (checkDir st d).fs = st.fs := by
  unfold checkDir
  split
  · exact Or.inl rfl
  · split
    · exact Or.inr rfl
    · exact Or.inr rfl

lemma checkDir_isdir_mono (st : VState) (d p : String)
    (h : isdir st.fs p = true) : isdir (checkDir st d).fs p = true := by
  rcases checkDir_fs_cases st d with hc | hc <;> rw [hc]
  · exact isdir_makedirs_of st.fs d p h
  · exact h

lemma foldDir_isdir_mono : ∀ (l : List String) (st : VState) (p : String),
    isdir st.fs p = true → isdir ((l.foldl checkDir st).fs) p = true := by
  intro l
  induction l with
  | nil => intro st p h; exact h
  | cons d ds ih =>
    intro st p h
    rw [List.foldl_cons]
    exact ih _ p (checkDir_isdir_mono st d p h)

lemma checkDir_isdir_self (st : VState) (d : String) :
    isdir (checkDir st d).fs d = true := by
  by_cases h : isdir st.fs d = false
  · unfold checkDir
    rw [if_pos h]
    show isdir (makedirs st.fs d) d = true
    rw [isdir_makedirs, if_pos rfl]
  · have h' : isdir st.fs d = true := by
      cases hh : isdir st.fs d
      · exact absurd hh h
      · rfl
    rcases checkDir_fs_cases st d with hc | hc <;> rw [hc]
    · exact isdir_makedirs_of st.fs d d h'
    · exact h'

lemma foldDir_creates : ∀ (l : List String) (st : VState),
    ∀ d ∈ l, isdir ((l.foldl checkDir st).fs) d = true := by
  intro l
  induction l with
  | nil => intro st d h; simp at h
  | cons x xs ih =>
    intro st d h
    rw [List.foldl_cons]
    rcases List.mem_cons.mp h with h | h
    · subst h
      exact foldDir_isdir_mono xs _ d (checkDir_isdir_self st d)
    · exact ih _ d h

/-- Printed-message invariant: a state whose flag is down has at least
one printed message, and both loop bodies preserve this. -/
lemma checkFile_log_inv (st : VState) (f : String)
    (h : st.flag = false → st.log ≠ []) :
    (checkFile st f).flag = false → (checkFile st f).log ≠ [] := by
  unfold checkFile
  split
  · exact h
  · intro _
    simp

lemma checkDir_log_inv (st : VState) (d : String)
    (h : st.flag = false → st.log ≠ []) :
    (checkDir st d).flag = false → (checkDir st d).log ≠ [] := by
  unfold checkDir
  split
  · exact h
  · split
    · intro _
      simp
    · exact h

lemma foldFile_log_inv : ∀ (l : List String) (st : VState),
    (st.flag = false → st.log ≠ []) →
    ((l.foldl checkFile st).flag = false → (l.foldl checkFile st).log ≠ []) := by
  intro l
  induction l with
  | nil => intro st h; exact h
  | cons f fsx ih =>
    intro st h
    rw [List.foldl_cons]
    exact ih _ (checkFile_log_inv st f h)

lemma foldDir_log_inv : ∀ (l : List String) (st : VState),
    (st.flag = false → st.log ≠ []) →
    ((l.foldl checkDir st).flag = false → (l.foldl checkDir st).log ≠ []) := by
  intro l
  induction l with
  | nil => intro st h; exact h
  | cons d ds ih =>
    intro st h
    rw [List.foldl_cons]
    exact ih _ (checkDir_log_inv st d h)

/-- Closed form of the flag validate_paths returns. -/
lemma validate_flag_eq (fs : FS) :
    (validate_paths fs).flag
      = ((dataFiles.all fun f => isfile fs f) && outputDirs.all fun d => dirOk fs d) := by
  unfold validate_paths
  rw [foldDir_flag _ _ (by decide), foldFile_fs, foldFile_flag]
  simp

lemma validate_log_ne_nil (fs : FS) :
    (validate_paths fs).flag = false → (validate_paths fs).log ≠ [] := by
  unfold validate_paths
  refine foldDir_log_inv _ _ (foldFile_log_inv _ _ ?_)
  intro h
  simp at h

/-- Propositional characterisation of path validation success. -/
lemma validate_flag_iff (fs : FS) :
    (validate_paths fs).flag = true ↔
      (isfile fs DATA_TRAIN = true ∧ isfile fs DATA_VALID = true ∧
        ∀ d ∈ outputDirs, isdir fs d = true → globCount fs d = 0) := by
  rw [validate_flag_eq]
  simp only [Bool.and_eq_true, List.all_eq_true, dataFiles, List.mem_cons,
    List.not_mem_nil, or_false, dirOk, Bool.or_eq_true, Bool.not_eq_true',
    beq_iff_eq]
  constructor
  · rintro ⟨hf, hd⟩
    refine ⟨hf DATA_TRAIN (Or.inl rfl), hf DATA_VALID (Or.inr rfl), ?_⟩
    intro d hdm hdir
    rcases hd d hdm with h | h
    · rw [hdir] at h
      exact absurd h (by simp)
    · exact h
  · rintro ⟨h1, h2, h3⟩
    constructor
    · rintro f (rfl | rfl)
      · exact h1
      · exact h2
    · intro d hdm
      by_cases hdir : isdir fs d = true
      · exact Or.inr (h3 d hdm hdir)
      · exact Or.inl (by simpa using hdir)

lemma rangeMap_getD {α : Type} (f : Nat → α) (n a : Nat) (d : α) :
    ((List.range n).map f).getD a d = if a < n then f a else d := by
  by_cases h : a < n
  · rw [List.getD_eq_getElem?_getD, List.getElem?_map, List.getElem?_range h]
    simp [h]
  · rw [List.getD_eq_getElem?_getD, List.getElem?_eq_none]
    · simp [h]
    · simp only [List.length_map, List.length_range]
      omega

/-- Element (a, b, c) of a scaled, reshaped row is the flat pixel at
the row-major offset, divided by 255. -/
lemma image_elem (flat : List ℚ) {a b c : Nat}
    (ha : a < 104) (hb : b < 104) (hc : c < 3) :
    (((scaleImage (reshape3 flat)).getD a []).getD b []).getD c 0
      = flat.getD (a * (104 * 3) + b * 3 + c) 0 / 255 := by
  simp [scaleImage, reshape3, List.map_map, Function.comp, rangeMap_getD, ha, hb, hc]

lemma map_getD_of_lt {α β : Type} (l : List α) (f : α → β) (i : Nat)
    (hi : i < l.length) (d : β) : (l.map f).getD i d = f (l.get ⟨i, hi⟩) := by
  rw [List.getD_eq_getElem?_getD, List.getElem?_map, List.getElem?_eq_getElem hi]
  rfl

/-- With the script's constants the resize branch is dead: load_data
reduces to splitting each shuffled matrix. -/
lemma load_data_eq_split (resize : List ℚ → List (List (List ℚ)))
    (shuffleT shuffleV : List Row → List Row) (mt mv : List Row) :
    load_data resize shuffleT shuffleV mt mv
      = (load_split (shuffleT mt), load_split (shuffleV mv)) := rfl

lemma load_split_x_getD (m : List Row) (i : Nat) (hi : i < m.length) :
    (load_split m).1.getD i [] = scaleImage (reshape3 (m.get ⟨i, hi⟩).2) :=
  map_getD_of_lt m _ i hi []

lemma load_split_y_getD (m : List Row) (i : Nat) (hi : i < m.length) :
    (load_split m).2.getD i []
      = oneHot (numClasses (m.map Prod.fst)) (m.get ⟨i, hi⟩).1 := by
  show (to_categorical (m.map Prod.fst)).getD i [] = _
  unfold to_categorical
  have hi' : i < (m.map Prod.fst).length := by simpa using hi
  rw [map_getD_of_lt (m.map Prod.fst) _ i hi' []]
  congr 1
  rw [List.get_eq_getElem, List.get_eq_getElem, List.getElem_map]

-- claim theorems

/-- Claim C3: for every pair of label tensor y_true and prediction
tensor y_pred of the same shape, margin_loss returns exactly the
scalar mean over samples of the per-sample sum over classes of
y_true times max(0, 0.9 - y_pred) squared plus 0.5 times (1 - y_true)
times max(0, y_pred - 0.1) squared, the asymmetric margin penalty with
down-weight 0.5 on the negative-class term. -/
theorem margin_loss_matches_spec (y_true y_pred : List (List ℚ))
    (hshape : List.Forall₂ (fun r s => r.length = s.length) y_true y_pred) :
    margin_loss y_true y_pred = marginLossSpec y_true y_pred := by
  rw [margin_loss_eq_pointwise]
  unfold kMean marginLossSpec pointLoss
  rw [List.map_zipWith, List.length_zipWith, List.Forall₂.length_eq hshape, min_self]

theorem margin_loss_matches_spec_witness :
    List.Forall₂ (fun (r s : List ℚ) => r.length = s.length)
        [[1, 0], [0, 1]] [[0.8, 0.2], [0.3, 0.4]]
      ∧ margin_loss [[1, 0], [0, 1]] [[0.8, 0.2], [0.3, 0.4]]
          = marginLossSpec [[1, 0], [0, 1]] [[0.8, 0.2], [0.3, 0.4]] :=
  ⟨by decide, margin_loss_matches_spec _ _ (by decide)⟩

/-- Claim C10: margin_loss is non-negative whenever every entry of
y_true lies in the unit interval, whatever y_pred is. -/
theorem margin_loss_nonneg (y_true y_pred : List (List ℚ))
    (h : ∀ r ∈ y_true, ∀ t ∈ r, 0 ≤ t ∧ t ≤ 1) :
    0 ≤ margin_loss y_true y_pred := by
  rw [margin_loss_eq_pointwise]
  unfold kMean
  apply div_nonneg
  · apply List.sum_nonneg
    intro x hx
    rw [List.mem_map] at hx
    rcases hx with ⟨row, hrow, rfl⟩
    apply List.sum_nonneg
    intro v hv
    rcases of_mem_zipWith _ hrow with ⟨r, hr, s, _hs, rfl⟩
    rcases of_mem_zipWith _ hv with ⟨t, ht, p, _hp, rfl⟩
    rcases h r hr t ht with ⟨h0, h1⟩
    exact pointLoss_nonneg h0 h1
  · exact Nat.cast_nonneg _

theorem margin_loss_nonneg_witness :
    (∀ r ∈ [[(1 : ℚ), 0]], ∀ t ∈ r, 0 ≤ t ∧ t ≤ 1)
      ∧ 0 ≤ margin_loss [[1, 0]] [[5, -3]] :=
  ⟨by norm_num, margin_loss_nonneg [[1, 0]] [[5, -3]] (by norm_num)⟩

/-- Claim C4: the learning-rate decay callback carries the schedule
mapping epoch e to LEARN_RATE times DECAY_RATE to the e, which equals
0.001 times 0.9 to the e; the schedule at epoch 0 is the initial
learning rate 0.001, and the schedule is strictly decreasing in the
epoch. -/
theorem lrSchedule_decreasing :
    callbacks[2]? = some (Callback.lrScheduler lrSchedule)
    ∧ (∀ e : Nat, lrSchedule e = 0.001 * 0.9 ^ e)
    ∧ lrSchedule 0 = 0.001
    ∧ ∀ e1 e2 : Nat, e1 < e2 → lrSchedule e2 < lrSchedule e1 := by
  refine ⟨rfl, fun e => rfl, ?_, ?_⟩
  · unfold lrSchedule LEARN_RATE DECAY_RATE
    norm_num
  · intro e1 e2 h
    unfold lrSchedule
    refine mul_lt_mul_of_pos_left ?_ (by norm_num [LEARN_RATE])
    exact pow_lt_pow_right_of_lt_one₀ (by norm_num [DECAY_RATE])
      (by norm_num [DECAY_RATE]) h

theorem lrSchedule_decreasing_witness :
    0 < 1 ∧ lrSchedule 1 < lrSchedule 0 :=
  ⟨Nat.zero_lt_one, lrSchedule_decreasing.2.2.2 0 1 Nat.zero_lt_one⟩

/-- Claim C5: every path the script constructs for writing lies inside
the output tree under OUTPUT_DIR: the model JSON files under the
models directory, the CSV log and the two learning-curve plots under
the logs directory, the two weight checkpoints under the checkpoints
directory, and the TensorBoard event directory under the tensorboard
directory; no constructed write path lies outside those four
subdirectories, each of which lies under OUTPUT_DIR. -/
theorem output_paths_in_tree :
    underDir mdl_dir mdl_train_file = true
    ∧ underDir mdl_dir mdl_evaln_file = true
    ∧ underDir log_dir log_file = true
    ∧ underDir log_dir plot_loss_file = true
    ∧ underDir log_dir plot_accuracy_file = true
    ∧ underDir cpt_dir cpt_best = true
    ∧ underDir cpt_dir cpt_last = true
    ∧ underDir tbd_dir tbd_dir = true
    ∧ (outputWritePaths.all fun p => outputSubdirs.any fun d => underDir d p) = true
    ∧ (outputSubdirs.all fun d => underDir OUTPUT_DIR d) = true := by
  decide

/-- Claim C1 counterexample: a pre-existing, non-empty top output
directory whose single entry has no dot in its name does not make
validate_paths return false; with both data files present, train()
runs to completion, refuting the claim that validation fails whenever
a pre-existing output directory is non-empty. -/
theorem nonempty_dir_passes_validation :
    entries fsBad OUTPUT_DIR = ["README"]
    ∧ (validate_paths fsBad).flag = true
    ∧ train fsBad envOk = Except.ok successEvents := by
  refine ⟨by decide, by decide, by rfl⟩

/-- Claim C1 (amended): validate_paths returns false exactly when a
data file is absent or some pre-existing output directory contains an
entry matched by the glob pattern star-dot-star; on failure train()
prints at least one informational message and returns early without
an error, and on success (with no framework exception) training runs. -/
theorem validate_gate (fs : FS) (env : TrainEnv) :
    ((validate_paths fs).flag = true ↔
        (isfile fs DATA_TRAIN = true ∧ isfile fs DATA_VALID = true ∧
          ∀ d ∈ outputDirs, isdir fs d = true → globCount fs d = 0))
    ∧ ((validate_paths fs).flag = false →
        (validate_paths fs).log ≠ []
          ∧ train fs env = Except.ok ((validate_paths fs).log.map Event.consoleInfo))
    ∧ ((validate_paths fs).flag = true →
        env.loadResult = Except.ok () → env.buildResult = Except.ok () →
          env.fitResult = Except.ok () →
          ∃ evs : List Event, train fs env = Except.ok evs ∧ Event.fitCall ∈ evs) := by
  refine ⟨validate_flag_iff fs, ?_, ?_⟩
  · intro hflag
    exact ⟨validate_log_ne_nil fs hflag, by simp [train, hflag]⟩
  · intro hflag hl hb hf
    refine ⟨(validate_paths fs).log.map Event.consoleInfo ++
        [Event.consoleInfo "[INFO] Loading data... done",
         Event.consoleInfo "[INFO] Building model... done",
         Event.writeFile mdl_train_file,
         Event.writeFile mdl_evaln_file,
         Event.sendMessage TELCHAT_ID,
         Event.fitCall,
         Event.savePlot plot_loss_file,
         Event.savePlot plot_accuracy_file], ?_, by simp⟩
    simp [train, hflag, hl, hb, hf]

theorem validate_gate_witness :
    (validate_paths fsMissing).flag = false
      ∧ (validate_paths fsMissing).log ≠ []
      ∧ train fsMissing envOk
          = Except.ok ((validate_paths fsMissing).log.map Event.consoleInfo) := by
  have h := (validate_gate fsMissing envOk).2.1 (by decide)
  exact ⟨by decide, h.1, h.2⟩

/-- Claim C6: train() installs no exception handler: once path
validation passes, an error raised by data loading, model building,
or fitting becomes the error of the whole run, with no retry or
recovery. -/
theorem train_propagates (fs : FS) (env : TrainEnv) (e : String)
    (hv : (validate_paths fs).flag = true) :
    (env.loadResult = Except.error e → train fs env = Except.error e)
    ∧ (env.loadResult = Except.ok () → env.buildResult = Except.error e →
        train fs env = Except.error e)
    ∧ (env.loadResult = Except.ok () → env.buildResult = Except.ok () →
        env.fitResult = Except.error e → train fs env = Except.error e) := by
  refine ⟨?_, ?_, ?_⟩
  · intro hl
    simp [train, hv, hl]
  · intro hl hb
    simp [train, hv, hl, hb]
  · intro hl hb hf
    simp [train, hv, hl, hb, hf]

theorem train_propagates_witness :
    (validate_paths fsFresh).flag = true
      ∧ train fsFresh envLoadFail = Except.error "IOError" :=
  ⟨by decide, (train_propagates fsFresh envLoadFail "IOError" (by decide)).1 rfl⟩

/-- Claim C7: the Telegram callback is constructed from the
module-level constants AUTH_TOKEN and TELCHAT_ID, and every run past
path validation in which no framework call raises sends an
acknowledgement message addressed to TELCHAT_ID before fit is
called. -/
theorem telegram_uses_constants :
    callbacks.getLast? = some (Callback.telegram AUTH_TOKEN TELCHAT_ID
        ("val_" ++ ARCHITECTURE ++ "_acc") OUTPUT_DIR)
    ∧ ∀ fs env, (validate_paths fs).flag = true →
        env.loadResult = Except.ok () → env.buildResult = Except.ok () →
        env.fitResult = Except.ok () →
        ∃ (evs : List Event) (i j : Nat), train fs env = Except.ok evs ∧ i < j
          ∧ evs[i]? = some (Event.sendMessage TELCHAT_ID)
          ∧ evs[j]? = some Event.fitCall := by
  refine ⟨rfl, ?_⟩
  intro fs env hv hl hb hf
  refine ⟨(validate_paths fs).log.map Event.consoleInfo ++
      ([Event.consoleInfo "[INFO] Loading data... done",
        Event.consoleInfo "[INFO] Building model... done",
        Event.writeFile mdl_train_file,
        Event.writeFile mdl_evaln_file,
        Event.sendMessage TELCHAT_ID] ++
       [Event.fitCall, Event.savePlot plot_loss_file,
        Event.savePlot plot_accuracy_file]),
    ((validate_paths fs).log.map Event.consoleInfo).length + 4,
    ((validate_paths fs).log.map Event.consoleInfo).length + 5,
    ?_, by omega, ?_, ?_⟩
  · simp [train, hv, hl, hb, hf]
  · rw [List.getElem?_append_right (by omega)]
    have h4 : ((validate_paths fs).log.map Event.consoleInfo).length + 4
        - ((validate_paths fs).log.map Event.consoleInfo).length = 4 := by omega
    rw [h4]
    rfl
  · rw [List.getElem?_append_right (by omega)]
    have h5 : ((validate_paths fs).log.map Event.consoleInfo).length + 5
        - ((validate_paths fs).log.map Event.consoleInfo).length = 5 := by omega
    rw [h5]
    rfl

theorem telegram_uses_constants_witness :
    (validate_paths fsFresh).flag = true
      ∧ ∃ (evs : List Event) (i j : Nat), train fsFresh envOk = Except.ok evs ∧ i < j
          ∧ evs[i]? = some (Event.sendMessage TELCHAT_ID)
          ∧ evs[j]? = some Event.fitCall :=
  ⟨by decide, telegram_uses_constants.2 fsFresh envOk (by decide) rfl rfl rfl⟩

/-- Claim C8: validate_paths judges a pre-existing output directory
only by the glob pattern star-dot-star: when every entry of every
pre-existing output directory lacks a dot in its name, validation
passes and train() proceeds to fit; and after validate_paths all five
output directories exist, missing ones having been created, which
never causes refusal. -/
theorem dotless_entries_pass (fs : FS) (env : TrainEnv)
    (h1 : isfile fs DATA_TRAIN = true) (h2 : isfile fs DATA_VALID = true)
    (h3 : ∀ d ∈ outputDirs, ∀ e ∈ entries fs d, e.data.contains '.' = false) :
    (validate_paths fs).flag = true
    ∧ (∀ d ∈ outputDirs, isdir (validate_paths fs).fs d = true)
    ∧ (env.loadResult = Except.ok () → env.buildResult = Except.ok () →
        env.fitResult = Except.ok () →
        ∃ evs, train fs env = Except.ok evs ∧ Event.fitCall ∈ evs) := by
  have hflag : (validate_paths fs).flag = true := by
    rw [validate_flag_iff]
    refine ⟨h1, h2, ?_⟩
    intro d hd _
    have hm : ∀ e ∈ entries fs d, ¬(matchesGlob e = true) := by
      intro e he
      have hfalse : matchesGlob e = false := by
        unfold matchesGlob
        rw [h3 d hd e he]
        rfl
      simp [hfalse]
    unfold globCount
    rw [List.filter_eq_nil_iff.mpr hm]
    rfl
  refine ⟨hflag, ?_, ?_⟩
  · intro d hd
    exact foldDir_creates _ _ d hd
  · intro hl hb hf
    refine ⟨(validate_paths fs).log.map Event.consoleInfo ++
        [Event.consoleInfo "[INFO] Loading data... done",
         Event.consoleInfo "[INFO] Building model... done",
         Event.writeFile mdl_train_file,
         Event.writeFile mdl_evaln_file,
         Event.sendMessage TELCHAT_ID,
         Event.fitCall,
         Event.savePlot plot_loss_file,
         Event.savePlot plot_accuracy_file], ?_, by simp⟩
    simp [train, hflag, hl, hb, hf]

theorem dotless_entries_pass_witness :
    (∀ d ∈ outputDirs, ∀ e ∈ entries fsDotless d, e.data.contains '.' = false)
      ∧ (validate_paths fsDotless).flag = true :=
  ⟨by decide, (dotless_entries_pass fsDotless envOk (by decide) (by decide)
      (by decide)).1⟩

/-- Claim C2: for each loaded dataset matrix (train and validation),
load_data treats column 0 of each row as an integer class label and
the remaining columns as flattened pixels: the returned x is columns
1 and on of the shuffled matrix reshaped row-major to (104, 104, 3)
and divided by 255, elementwise x at (i, a, b, c) being pixel
a * 312 + b * 3 + c of shuffled row i over 255, and the returned y
is the one-hot categorical encoding of column 0. -/
theorem load_data_splits_columns
    (resize : List ℚ → List (List (List ℚ)))
    (shuffleT shuffleV : List Row → List Row) (mt mv : List Row)
    (_hpt : (shuffleT mt).Perm mt) (_hpv : (shuffleV mv).Perm mv)
    (_hwt : ∀ r ∈ mt, r.2.length = pixelCount)
    (_hwv : ∀ r ∈ mv, r.2.length = pixelCount) :
    ((load_data resize shuffleT shuffleV mt mv).1.1
        = (shuffleT mt).map fun r => scaleImage (reshape3 r.2))
    ∧ ((load_data resize shuffleT shuffleV mt mv).1.2
        = to_categorical ((shuffleT mt).map Prod.fst))
    ∧ (∀ (i : Nat) (hi : i < (shuffleT mt).length) (a b c : Nat),
        a < 104 → b < 104 → c < 3 →
        ((((load_data resize shuffleT shuffleV mt mv).1.1.getD i []).getD a
            []).getD b []).getD c 0
          = ((shuffleT mt).get ⟨i, hi⟩).2.getD (a * (104 * 3) + b * 3 + c) 0 / 255)
    ∧ (∀ (i : Nat) (hi : i < (shuffleT mt).length),
        (load_data resize shuffleT shuffleV mt mv).1.2.getD i []
          = oneHot (numClasses ((shuffleT mt).map Prod.fst))
              ((shuffleT mt).get ⟨i, hi⟩).1)
    ∧ ((load_data resize shuffleT shuffleV mt mv).2.1
        = (shuffleV mv).map fun r => scaleImage (reshape3 r.2))
    ∧ ((load_data resize shuffleT shuffleV mt mv).2.2
        = to_categorical ((shuffleV mv).map Prod.fst))
    ∧ (∀ (i : Nat) (hi : i < (shuffleV mv).length) (a b c : Nat),
        a < 104 → b < 104 → c < 3 →
        ((((load_data resize shuffleT shuffleV mt mv).2.1.getD i []).getD a
            []).getD b []).getD c 0
          = ((shuffleV mv).get ⟨i, hi⟩).2.getD (a * (104 * 3) + b * 3 + c) 0 / 255)
    ∧ (∀ (i : Nat) (hi : i < (shuffleV mv).length),
        (load_data resize shuffleT shuffleV mt mv).2.2.getD i []
          = oneHot (numClasses ((shuffleV mv).map Prod.fst))
              ((shuffleV mv).get ⟨i, hi⟩).1) := by
  rw [load_data_eq_split]
  refine ⟨rfl, rfl, ?_, ?_, rfl, rfl, ?_, ?_⟩
  · intro i hi a b c ha hb hc
    rw [show ((load_split (shuffleT mt), load_split (shuffleV mv)).1.1 : List _)
        = (load_split (shuffleT mt)).1 from rfl]
    rw [load_split_x_getD (shuffleT mt) i hi]
    exact image_elem _ ha hb hc
  · intro i hi
    exact load_split_y_getD (shuffleT mt) i hi
  · intro i hi a b c ha hb hc
    rw [show ((load_split (shuffleT mt), load_split (shuffleV mv)).2.1 : List _)
        = (load_split (shuffleV mv)).1 from rfl]
    rw [load_split_x_getD (shuffleV mv) i hi]
    exact image_elem _ ha hb hc
  · intro i hi
    exact load_split_y_getD (shuffleV mv) i hi

theorem load_data_splits_columns_witness :
    (∀ r ∈ mtW, r.2.length = pixelCount)
      ∧ (load_data resizeW id id mtW mtW).1.2 = to_categorical (mtW.map Prod.fst) := by
  have hw : ∀ r ∈ mtW, r.2.length = pixelCount := by
    intro r hr
    rw [show r = rowW by simpa [mtW] using hr]
    simp [rowW]
  exact ⟨hw, (load_data_splits_columns resizeW id id mtW mtW (List.Perm.refl _)
    (List.Perm.refl _) hw hw).2.1⟩

/-- Claim C9: load_data preserves the label-image pairing under
shuffling: the whole rows are permuted before column 0 and the pixel
columns are split apart, so every returned image at index i and
one-hot label at index i come from one and the same original matrix
row. -/
theorem shuffle_preserves_pairing
    (resize : List ℚ → List (List (List ℚ)))
    (shuffleT shuffleV : List Row → List Row) (mt mv : List Row)
    (hpt : (shuffleT mt).Perm mt) (hpv : (shuffleV mv).Perm mv) :
    (∀ (i : Nat), i < (shuffleT mt).length →
      ∃ (j : Nat) (hj : j < mt.length),
        (load_data resize shuffleT shuffleV mt mv).1.1.getD i []
            = scaleImage (reshape3 (mt.get ⟨j, hj⟩).2)
          ∧ (load_data resize shuffleT shuffleV mt mv).1.2.getD i []
              = oneHot (numClasses ((shuffleT mt).map Prod.fst))
                  (mt.get ⟨j, hj⟩).1)
    ∧ (∀ (i : Nat), i < (shuffleV mv).length →
      ∃ (j : Nat) (hj : j < mv.length),
        (load_data resize shuffleT shuffleV mt mv).2.1.getD i []
            = scaleImage (reshape3 (mv.get ⟨j, hj⟩).2)
          ∧ (load_data resize shuffleT shuffleV mt mv).2.2.getD i []
              = oneHot (numClasses ((shuffleV mv).map Prod.fst))
                  (mv.get ⟨j, hj⟩).1) := by
  constructor
  · intro i hi
    have hmem : (shuffleT mt).get ⟨i, hi⟩ ∈ mt :=
      hpt.subset (List.get_mem _ _ _)
    rcases List.mem_iff_get.mp hmem with ⟨⟨j, hj⟩, hget⟩
    refine ⟨j, hj, ?_, ?_⟩
    · rw [load_data_eq_split]
      rw [show ((load_split (shuffleT mt), load_split (shuffleV mv)).1.1 : List _)
          = (load_split (shuffleT mt)).1 from rfl]
      rw [load_split_x_getD (shuffleT mt) i hi, hget]
    · rw [load_data_eq_split]
      rw [show ((load_split (shuffleT mt), load_split (shuffleV mv)).1.2 : List _)
          = (load_split (shuffleT mt)).2 from rfl]
      rw [load_split_y_getD (shuffleT mt) i hi, hget]
  · intro i hi
    have hmem : (shuffleV mv).get ⟨i, hi⟩ ∈ mv :=
      hpv.subset (List.get_mem _ _ _)
    rcases List.mem_iff_get.mp hmem with ⟨⟨j, hj⟩, hget⟩
    refine ⟨j, hj, ?_, ?_⟩
    · rw [load_data_eq_split]
      rw [show ((load_split (shuffleT mt), load_split (shuffleV mv)).2.1 : List _)
          = (load_split (shuffleV mv)).1 from rfl]
      rw [load_split_x_getD (shuffleV mv) i hi, hget]
    · rw [load_data_eq_split]
      rw [show ((load_split (shuffleT mt), load_split (shuffleV mv)).2.2 : List _)
          = (load_split (shuffleV mv)).2 from rfl]
      rw [load_split_y_getD (shuffleV mv) i hi, hget]

theorem shuffle_preserves_pairing_witness :
    0 < (id mtW).length
      ∧ ∃ (j : Nat) (hj : j < mtW.length),
        (load_data resizeW id id mtW mtW).1.1.getD 0 []
            = scaleImage (reshape3 (mtW.get ⟨j, hj⟩).2)
          ∧ (load_data resizeW id id mtW mtW).1.2.getD 0 []
              = oneHot (numClasses ((id mtW).map Prod.fst)) (mtW.get ⟨j, hj⟩).1 := by
  have hlen : 0 < (id mtW).length := by simp [mtW]
  exact ⟨hlen, (shuffle_preserves_pairing resizeW id id mtW mtW (List.Perm.refl _)
    (List.Perm.refl _)).1 0 hlen⟩

end CapsNet
